import Mathlib

/-!
# Verification of the Artwork Fetcher core

A shallow embedding of the artwork-store subsystem of the Artwork_fetcher
repository: the artwork reader, judge, writer and metadata extractor of
`yumebyo/components/localMusicScanner.py` and
`yumebyo/components/downloadedCoverProcessor.py`, the image-normalization
steps of `yumebyo/components/cover_processor.py`, and the query-URL builder
of `app/url_builder.py`.

Python byte strings are `List Nat`; tag dictionaries are association lists;
mutagen container objects are the `Container` inductive.  External library
behaviour that the code calls into (Pillow image decoding, Python's UTF-8
byte decoding) is passed in as explicit function arguments, so every theorem
quantifies over it.
-/

namespace ArtworkFetcher

/-- Python byte strings, one `Nat` (0..255) per byte. -/
abbrev Bytes := List Nat

/-! ## ASCII string helpers (models of Python `str` methods on ASCII data) -/

/-- ASCII lower-casing of one character (models `str.lower` on ASCII input;
every string the program lower-cases is ASCII: tag keys, theme names,
source-site names). -/
def lcChar (c : Char) : Char :=
  if 65 ≤ c.toNat ∧ c.toNat ≤ 90 then Char.ofNat (c.toNat + 32) else c

/-- ASCII upper-casing of one character (models `str.upper` on ASCII input). -/
def ucChar (c : Char) : Char :=
  if 97 ≤ c.toNat ∧ c.toNat ≤ 122 then Char.ofNat (c.toNat - 32) else c

/-- Models Python `s.lower()` (ASCII case mapping). -/
def strLowerL (s : String) : String := ⟨s.data.map lcChar⟩

/-- Models Python `s.upper()` (ASCII case mapping). -/
def strUpperL (s : String) : String := ⟨s.data.map ucChar⟩

/-- Models Python `s.startswith(pre)`. -/
def strStarts (pre s : String) : Bool := pre.data.isPrefixOf s.data

/-- `subListAt needle hay`: `needle` occurs as a contiguous sublist of `hay`. -/
def subListAt (needle : List Char) : List Char → Bool
  | [] => needle.isEmpty
  | c :: rest => needle.isPrefixOf (c :: rest) || subListAt needle rest

/-- Models Python `needle in hay` on strings (substring containment). -/
def subStr (needle hay : String) : Bool := subListAt needle.data hay.data

/-- Models Python `c in s` for a single character. -/
def strContainsChar (s : String) (c : Char) : Bool := s.data.contains c

/-- Models Python `s.strip()` on ASCII whitespace. -/
def pyStrip (s : String) : String :=
  ⟨(s.data.dropWhile (·.toNat ≤ 32)).reverse.dropWhile (·.toNat ≤ 32) |>.reverse⟩

/-! ## Data model: mutagen containers -/

/-- A FLAC metadata picture block (mutagen's `Picture`): also the payload of
an Ogg Vorbis `METADATA_BLOCK_PICTURE` comment.  A freshly constructed
`Picture()` has `width = height = 0`. -/
structure FlacPicture where
  ptype : Nat
  mime : String
  desc : String
  width : Nat
  height : Nat
  data : Bytes
deriving DecidableEq

/-- An ID3 frame of an MP3 file.  `apic` is an attached-picture frame
(dictionary key `"APIC:" ++ desc`, `FrameID = "APIC"`); `txtFrame` is any
other frame, keyed by its frame id, carrying text. -/
inductive Mp3Frame
  | apic (desc : String) (mime : String) (data : Bytes)
  | txtFrame (fid : String) (value : String)
deriving DecidableEq

/-- The ID3 dictionary key of a frame (mutagen's `HashKey`). -/
def Mp3Frame.fkey : Mp3Frame → String
  | .apic desc _ _ => "APIC:" ++ desc
  | .txtFrame fid _ => fid

/-- The frame's `FrameID` attribute. -/
def Mp3Frame.fid : Mp3Frame → String
  | .apic _ _ _ => "APIC"
  | .txtFrame fid _ => fid

/-- Models `getattr(frame, "data", None)`: only picture frames carry `data`. -/
def Mp3Frame.dataOpt : Mp3Frame → Option Bytes
  | .apic _ _ data => some data
  | .txtFrame _ _ => none

/-- An MP4 cover blob (mutagen `MP4Cover`): raw bytes plus the image-format
tag chosen from the mime string. -/
structure Mp4CoverBlob where
  data : Bytes
  fmtJpeg : Bool
deriving DecidableEq

/-- A value of the MP4 tag dictionary: either a list of cover blobs (the
`covr` atom) or a list of text values (the iTunes text atoms). -/
inductive Mp4Val
  | covers (blobs : List Mp4CoverBlob)
  | texts (values : List String)
deriving DecidableEq

/-- A value of an Ogg Vorbis comment.  A `picVal p` stands for the base64
string that decodes to the serialized picture block `p` (mutagen
`Picture(base64.b64decode(v))` succeeds and yields `p`); a `textVal s` is a
plain text value, on which that parse fails. -/
inductive OggVal
  | textVal (s : String)
  | picVal (p : FlacPicture)
deriving DecidableEq

/-- A generic Python tag value, as seen by the fallback branches:
a string, a byte string, or a list of values. -/
inductive PyVal
  | strVal (s : String)
  | bytesVal (b : Bytes)
  | listVal (l : List PyVal)

/-- A classified audio container, holding its tag state (the single source
of truth for one file).  `none` tags model mutagen's `tags is None`.
Ogg Vorbis files always carry a (possibly empty) Vorbis comment. -/
inductive Container
  | mp3 (tags : Option (List Mp3Frame))
  | flac (pictures : List FlacPicture) (tags : Option (List (String × String)))
  | mp4 (tags : Option (List (String × Mp4Val)))
  | ogg (tags : List (String × OggVal))
  | generic (tags : Option (List (String × PyVal)))

/-! ## Dictionary operations -/

/-- Case-insensitive value lookup of a Vorbis comment dictionary
(mutagen `VCommentDict.__getitem__`): all values whose key lower-cases to
the query key, in file order. -/
def vcGet (k : String) (tags : List (String × α)) : List α :=
  (tags.filter (fun kv => strLowerL kv.1 == strLowerL k)).map (·.2)

/-- Case-insensitive key membership of a Vorbis comment dictionary. -/
def vcHas (k : String) (tags : List (String × α)) : Bool :=
  !(vcGet k tags).isEmpty

/-- Case-insensitive deletion of every entry for a key
(mutagen `VCommentDict.__delitem__`). -/
def vcDel (k : String) (tags : List (String × α)) : List (String × α) :=
  tags.filter (fun kv => strLowerL kv.1 != strLowerL k)

/-- Case-insensitive replacement of a key's values
(mutagen `VCommentDict.__setitem__`: delete, then append the new pairs). -/
def vcSet (k : String) (vals : List α) (tags : List (String × α)) :
    List (String × α) :=
  vcDel k tags ++ vals.map (fun v => (k, v))

/-- Exact-key dictionary update (Python `d[k] = v`): replace in place when
the key exists, else append. -/
def dictSet (k : String) (v : α) (tags : List (String × α)) :
    List (String × α) :=
  if tags.any (·.1 == k) then
    tags.map (fun kv => if kv.1 == k then (k, v) else kv)
  else tags ++ [(k, v)]

/-! ## Artwork Reader (`localMusicScanner._iter_embedded_artwork`) -/

/-- One enumerated embedded picture: `(data, width, height)`;
dimensions are `none` when the container does not expose them. -/
abbrev PicEntry := Bytes × Option Nat × Option Nat

/-- Models `_iter_embedded_artwork` (localMusicScanner.py, lines 64-126):
enumerate the embedded pictures of a classified container. -/
def iter_embedded_artwork : Container → List PicEntry
  | .mp3 none => []
  | .mp3 (some frames) =>
    frames.filterMap fun f =>
      if strStarts "APIC" f.fid then
        match f.dataOpt with
        | some d => if d.isEmpty then none else some (d, none, none)
        | none => none
      else none
  | .flac pictures _ =>
    pictures.filterMap fun p =>
      if p.data.isEmpty then none else some (p.data, some p.width, some p.height)
  | .mp4 none => []
  | .mp4 (some tags) =>
    match tags.lookup "covr" with
    | some (.covers blobs) =>
      blobs.filterMap fun b =>
        if b.data.isEmpty then none else some (b.data, none, none)
    | some (.texts _) => []
    | none => []
  | .ogg tags =>
    (vcGet "METADATA_BLOCK_PICTURE" tags ++ vcGet "metadata_block_picture" tags).filterMap
      fun v =>
        match v with
        | .picVal p =>
          if p.data.isEmpty then none else some (p.data, some p.width, some p.height)
        | .textVal _ => none
  | .generic none => []
  | .generic (some tags) =>
    tags.filterMap fun kv =>
      if subStr "PICTURE" (strUpperL kv.1) || strStarts "APIC" kv.1 then
        match kv.2 with
        | .bytesVal b => some (b, none, none)
        | _ => none
      else none

/-! ## Artwork Judge (`localMusicScanner._is_square_image`, `has_embedded_artwork`) -/

/-- Python truthiness of an optional dimension (`if width and height:`):
present and non-zero. -/
def pyTruthyDim : Option Nat → Bool
  | none => false
  | some n => n != 0

/-- Models `_is_square_image` (localMusicScanner.py, lines 129-146).
`dec` is the Pillow decoder: the pixel `(width, height)` of the byte string,
or `none` when decoding fails (a missing Pillow install behaves like a
decoder that always fails). -/
def is_square_image (dec : Bytes → Option (Nat × Nat)) (data : Bytes)
    (width height : Option Nat) : Option Bool :=
  if pyTruthyDim width && pyTruthyDim height then
    some (width.getD 0 == height.getD 0)
  else if data.isEmpty then none
  else
    match dec data with
    | some (pw, ph) => some (pw == ph)
    | none => none

/-! ## Artwork Writer: removal (`localMusicScanner.remove_embedded_artwork`) -/

/-- Models the per-container body of `remove_embedded_artwork`
(localMusicScanner.py, lines 166-224): returns whether anything was removed,
and the resulting (saved) tag state. -/
def remove_embedded_artwork : Container → Bool × Container
  | .mp3 none => (false, .mp3 none)
  | .mp3 (some frames) =>
    let kept := frames.filter fun f => !(strStarts "APIC" f.fkey)
    (frames.any (fun f => strStarts "APIC" f.fkey), .mp3 (some kept))
  | .flac pictures tags =>
    (!pictures.isEmpty, .flac [] tags)
  | .mp4 none => (false, .mp4 none)
  | .mp4 (some tags) =>
    if (tags.lookup "covr").isSome then
      (true, .mp4 (some (tags.filter (fun kv => kv.1 != "covr"))))
    else (false, .mp4 (some tags))
  | .ogg tags =>
    let d1 := vcHas "METADATA_BLOCK_PICTURE" tags
    let t1 := if d1 then vcDel "METADATA_BLOCK_PICTURE" tags else tags
    let d2 := vcHas "metadata_block_picture" t1
    let t2 := if d2 then vcDel "metadata_block_picture" t1 else t1
    (d1 || d2, .ogg t2)
  | .generic none => (false, .generic none)
  | .generic (some tags) =>
    let kept := tags.filter fun kv => !(subStr "PICTURE" (strUpperL kv.1))
    (tags.any (fun kv => subStr "PICTURE" (strUpperL kv.1)), .generic (some kept))

/-! ## Artwork Judge, file level (`localMusicScanner.has_embedded_artwork`) -/

/-- The scan loop of `has_embedded_artwork` (lines 249-266), carried out over
the enumerated pictures with the two flags `artwork_found` and
`square_artwork_found`; at the first determinately non-square picture the
whole-file removal runs and the loop answers `false` with the purged state. -/
def hasArtLoop (dec : Bytes → Option (Nat × Nat)) (c : Container) :
    List PicEntry → Bool → Bool → Bool × Container
  | [], found, squareFound => (if squareFound then true else found, c)
  | (data, w, h) :: rest, _, squareFound =>
    match is_square_image dec data w h with
    | some false => (false, (remove_embedded_artwork c).2)
    | some true => hasArtLoop dec c rest true true
    | none => hasArtLoop dec c rest true squareFound

/-- Models `has_embedded_artwork` on an already classified container:
the loop over `_iter_embedded_artwork`, returning the boolean answer and
the (possibly purged) container state. -/
def has_embedded_artwork_on (dec : Bytes → Option (Nat × Nat))
    (c : Container) : Bool × Container :=
  hasArtLoop dec c (iter_embedded_artwork c) false false

/-- The three-valued artwork verdict of the design (§4.3).  The code's
boolean answer `True` is `AcceptableArtwork`, `False` is `NoArtwork`. -/
inductive ArtworkVerdict
  | NoArtwork
  | AcceptableArtwork
  | UnacceptableArtwork
deriving DecidableEq

/-- `evaluate` of the design: the verdict of the Judge on a classified
container, together with the container state it leaves behind. -/
def evaluate (dec : Bytes → Option (Nat × Nat)) (c : Container) :
    ArtworkVerdict × Container :=
  let r := has_embedded_artwork_on dec c
  (if r.1 then .AcceptableArtwork else .NoArtwork, r.2)

/-- How a file opens: `mutagen.File` may raise, may return `None`
(unsupported / corrupted), or yields a classified container. -/
inductive OpenRes
  | raisesErr
  | noneFile
  | parsed (c : Container)

/-- Models the full `has_embedded_artwork(file_path)` (lines 227-269)
including its guards and its catch-all `except`: mutagen availability, file
existence, and the result of `mutagen.File`. -/
def has_embedded_artwork (dec : Bytes → Option (Nat × Nat))
    (mutagenAvailable fileExists : Bool) (o : OpenRes) : Bool :=
  if !mutagenAvailable then false
  else if !fileExists then false
  else
    match o with
    | .raisesErr => false
    | .noneFile => false
    | .parsed c => (has_embedded_artwork_on dec c).1

/-! ## Artwork Writer: embedding (`downloadedCoverProcessor.embed_artwork`) -/

/-- Models the per-container body of `embed_artwork`
(downloadedCoverProcessor.py, lines 93-170): success flag and resulting tag
state.  MP3: create tags when missing, delete the `APIC`-keyed frames, add
one `APIC` frame (`desc='Cover'`, picture type 3).  FLAC: `add_picture` of a
fresh picture (type 3, `desc='Cover'`, width = height = 0) — existing
pictures are not cleared.  MP4: assign `tags['covr']` to a single cover blob
(JPEG format when the mime string contains `jpeg`/`jpg`, else PNG); when the
tags are `None` the subscript raises and the catch-all answers `False`.
Ogg Vorbis: set `METADATA_BLOCK_PICTURE` to the single base64 picture block.
Other containers: report failure. -/
def embed_artwork (c : Container) (imageData : Bytes) (mimeType : String) :
    Bool × Container :=
  match c with
  | .mp3 tags =>
    let frames := tags.getD []
    let kept := frames.filter fun f => !(strStarts "APIC" f.fkey)
    (true, .mp3 (some (kept ++ [.apic "Cover" mimeType imageData])))
  | .flac pictures tags =>
    (true, .flac (pictures ++ [⟨3, mimeType, "Cover", 0, 0, imageData⟩]) tags)
  | .mp4 none => (false, .mp4 none)
  | .mp4 (some tags) =>
    let jpeg := subStr "jpeg" mimeType || subStr "jpg" mimeType
    (true, .mp4 (some (dictSet "covr" (.covers [⟨imageData, jpeg⟩]) tags)))
  | .ogg tags =>
    (true, .ogg (vcSet "METADATA_BLOCK_PICTURE"
      [OggVal.picVal ⟨3, mimeType, "Cover", 0, 0, imageData⟩] tags))
  | .generic tags => (false, .generic tags)

/-! ## Metadata Extractor (`localMusicScanner.get_music_metadata`) -/

/-- The extracted text fields. -/
structure TrackMetadata where
  artist : Option String
  album : Option String
  title : Option String
deriving DecidableEq

/-- The Python string operations `_extract_tag_value` depends on, passed in
explicitly: `bdec` models `bytes.decode('utf-8', ...)` (with its replace
fallback), `reprList` models `str` applied to a list value, and `b64Repr`
is the base64 text under which a picture block is stored in a Vorbis
comment. -/
structure PyStrOps where
  bdec : Bytes → String
  reprList : List PyVal → String
  b64Repr : FlacPicture → String

/-- Models `_extract_tag_value` (localMusicScanner.py, lines 273-289):
unwrap a one-level list (empty list gives `None`), decode bytes, otherwise
`str`. -/
def extract_tag_value (ops : PyStrOps) : PyVal → Option String
  | .listVal [] => none
  | .listVal (.bytesVal b :: _) => some (ops.bdec b)
  | .listVal (.strVal s :: _) => some s
  | .listVal (.listVal l :: _) => some (ops.reprList l)
  | .bytesVal b => some (ops.bdec b)
  | .strVal s => some s

/-- Python truthiness of an optional string: present and non-empty. -/
def truthyStr : Option String → Bool
  | none => false
  | some s => !s.isEmpty

/-- The first-match priority loop of `get_music_metadata`
(`for tag in tags_list: if tag in tags: field = extract(tags[tag]); if field: break`):
the field keeps the last extracted value, and the loop stops at the first
truthy one. -/
def firstTagMatch (ops : PyStrOps) (lookupf : String → Option PyVal) :
    List String → Option String → Option String
  | [], acc => acc
  | k :: ks, acc =>
    match lookupf k with
    | none => firstTagMatch ops lookupf ks acc
    | some v =>
      let r := extract_tag_value ops v
      if truthyStr r then r else firstTagMatch ops lookupf ks r

/-- An MP3 frame as `_extract_tag_value` sees it: `str` of a text frame is
its text.  The metadata keys only ever reach text frames (`APIC` frames are
keyed `"APIC:..."`), so the picture arm is unreachable there. -/
def mp3FrameVal : Mp3Frame → PyVal
  | .txtFrame _ v => .strVal v
  | .apic _ _ _ => .strVal ""

/-- An Ogg comment value as Python sees it (always a `str`): the text
itself, or the base64 rendering of a picture block. -/
def oggValPy (ops : PyStrOps) : OggVal → PyVal
  | .textVal s => .strVal s
  | .picVal p => .strVal (ops.b64Repr p)

/-- Models the per-container body of `get_music_metadata`
(localMusicScanner.py, lines 319-406): artist/album/title per the
container's tag convention, `none` when absent. -/
def extract_metadata (ops : PyStrOps) : Container → TrackMetadata
  | .mp3 none => ⟨none, none, none⟩
  | .mp3 (some frames) =>
    let lk := fun k => (frames.find? (fun f => f.fkey == k)).map mp3FrameVal
    { artist := firstTagMatch ops lk ["TPE1", "TPE2", "TCOM"] none
      album := firstTagMatch ops lk ["TALB"] none
      title := firstTagMatch ops lk ["TIT2", "TIT1"] none }
  | .flac _ none => ⟨none, none, none⟩
  | .flac _ (some prs) =>
    let f := fun k =>
      if vcHas k prs then
        extract_tag_value ops (.listVal ((vcGet k prs).map .strVal))
      else none
    { artist := f "artist", album := f "album", title := f "title" }
  | .mp4 none => ⟨none, none, none⟩
  | .mp4 (some tags) =>
    let g := fun k =>
      match tags.lookup k with
      | some (.texts vs) =>
        extract_tag_value ops (.listVal (vs.map .strVal))
      | some (.covers bs) =>
        extract_tag_value ops (.listVal (bs.map (fun b => PyVal.bytesVal b.data)))
      | none => none
    { artist := g "©ART", album := g "©alb", title := g "©nam" }
  | .ogg tags =>
    let f := fun k =>
      if vcHas k tags then
        extract_tag_value ops (.listVal ((vcGet k tags).map (oggValPy ops)))
      else none
    { artist := f "artist", album := f "album", title := f "title" }
  | .generic none => ⟨none, none, none⟩
  | .generic (some tags) =>
    let lk := fun k => tags.lookup k
    { artist := firstTagMatch ops lk ["artist", "ARTIST", "TPE1", "©ART"] none
      album := firstTagMatch ops lk ["album", "ALBUM", "TALB", "©alb"] none
      title := firstTagMatch ops lk ["title", "TITLE", "TIT2", "©nam"] none }

/-- The error modes of `get_music_metadata`: the `ImportError` when mutagen
is missing, `FileNotFoundError` for a missing path, and the wrapped
generic exception for a container that cannot be parsed. -/
inductive MetaError
  | importError
  | fileNotFound
  | unreadableFile
deriving DecidableEq

/-- Models `get_music_metadata(file_path)` (lines 292-409) end to end:
guards first (mutagen, existence), then `mutagen.File`; a `None` result or
an exception is re-raised as the generic "Error reading metadata" exception
(`unreadableFile`). -/
def get_music_metadata (ops : PyStrOps)
    (mutagenAvailable fileExists : Bool) (o : OpenRes) :
    Except MetaError TrackMetadata :=
  if !mutagenAvailable then .error .importError
  else if !fileExists then .error .fileNotFound
  else
    match o with
    | .raisesErr => .error .unreadableFile
    | .noneFile => .error .unreadableFile
    | .parsed c => .ok (extract_metadata ops c)

/-! ## Search URL Builder (`app/url_builder.build_url_with_params`) -/

/-- UTF-8 encoding of one character (the bytes Python percent-encodes). -/
def charUtf8 (c : Char) : Bytes :=
  let n := c.toNat
  if n < 128 then [n]
  else if n < 2048 then [192 + n / 64, 128 + n % 64]
  else if n < 65536 then
    [224 + n / 4096, 128 + (n / 64) % 64, 128 + n % 64]
  else
    [240 + n / 262144, 128 + (n / 4096) % 64, 128 + (n / 64) % 64, 128 + n % 64]

/-- One upper-case hex digit. -/
def hexDigit (n : Nat) : Char :=
  if n < 10 then Char.ofNat (48 + n) else Char.ofNat (55 + n)

/-- A byte as seen by `urllib.parse.quote_plus`: unreserved bytes
(ALPHA / DIGIT / `_` `.` `-` `~`) pass through, a space becomes `+`, and
every other byte becomes `%XX` with upper-case hex. -/
def quoteByte (b : Nat) : List Char :=
  if (48 ≤ b ∧ b ≤ 57) ∨ (65 ≤ b ∧ b ≤ 90) ∨ (97 ≤ b ∧ b ≤ 122)
      ∨ b = 95 ∨ b = 46 ∨ b = 45 ∨ b = 126 then
    [Char.ofNat b]
  else if b = 32 then ['+']
  else ['%', hexDigit (b / 16), hexDigit (b % 16)]

/-- Models `urllib.parse.quote_plus` over the string's UTF-8 bytes. -/
def pyQuotePlus (s : String) : String :=
  ⟨((s.data.map charUtf8).flatten.map quoteByte).flatten⟩

/-- Models `urllib.parse.urlencode(params)`: each pair is
`quote_plus(key) = quote_plus(value)`, joined by `&` in insertion order. -/
def urlencodeParams (ps : List (String × String)) : String :=
  String.intercalate "&" (ps.map fun kv => pyQuotePlus kv.1 ++ "=" ++ pyQuotePlus kv.2)

/-- The parameter dictionary built by `build_url_with_params`
(url_builder.py, lines 38-61), in insertion order.  `theme` is included only
when non-empty and lower-casing to `light`/`dark`; `sources` when the list
is non-empty, with each truthy source lower-cased and stripped, then
comma-joined; the rest when non-empty.  An absent optional argument behaves
exactly like an empty one (both are falsy), so `""` / `[]` stand for
`None`. -/
def pyParams (theme resolution : String) (sources : List String)
    (country artist album identifier : String) : List (String × String) :=
  (if !theme.isEmpty && (strLowerL theme == "light" || strLowerL theme == "dark")
    then [("theme", strLowerL theme)] else [])
  ++ (if !resolution.isEmpty then [("resolution", resolution)] else [])
  ++ (if !sources.isEmpty then
        [("sources", String.intercalate ","
          ((sources.filter (fun s => !s.isEmpty)).map (fun s => pyStrip (strLowerL s))))]
      else [])
  ++ (if !country.isEmpty then [("country", country)] else [])
  ++ (if !artist.isEmpty then [("artist", artist)] else [])
  ++ (if !album.isEmpty then [("album", album)] else [])
  ++ (if !identifier.isEmpty then [("identifier", identifier)] else [])

/-- Models `build_url_with_params` (url_builder.py, lines 9-69): when any
parameter was included, append the url-encoded query string after `&` if
`base_url` already contains `?`, else after `?`; otherwise return `base_url`
unchanged. -/
def build_url_with_params (base_url theme resolution : String)
    (sources : List String) (country artist album identifier : String) : String :=
  let params := pyParams theme resolution sources country artist album identifier
  if !params.isEmpty then
    base_url ++ (if strContainsChar base_url '?' then "&" else "?")
      ++ urlencodeParams params
  else base_url

/-- Models `build_musichoarders_url_with_params`
(webMetadataFetcher.py, lines 89-149), whose body is identical to
`build_url_with_params` (the `base_url` merely has a default). -/
def build_musichoarders_url_with_params (base_url theme resolution : String)
    (sources : List String) (country artist album identifier : String) : String :=
  build_url_with_params base_url theme resolution sources country artist album identifier

/-! ## Image Normalizer (`cover_processor.py`) -/

/-- A decoded Pillow image: dimensions plus an RGB pixel map. -/
structure PILImage where
  width : Nat
  height : Nat
  pix : Nat → Nat → Nat × Nat × Nat

/-- Models `Image.crop((left, top, right, bottom))`: the new size is
`(right-left, bottom-top)` and pixel `(x, y)` comes from
`(x+left, y+top)` of the source. -/
def pilCrop (img : PILImage) (left top right bottom : Nat) : PILImage :=
  { width := right - left
    height := bottom - top
    pix := fun x y => img.pix (x + left) (y + top) }

/-- Models `_crop_center_square` (cover_processor.py, lines 78-90):
a square image passes through; otherwise crop to the centred square of side
`min(width, height)` at integer-division offsets. -/
def crop_center_square (img : PILImage) : PILImage :=
  if img.width = img.height then img
  else
    let side := min img.width img.height
    let left := (img.width - side) / 2
    let top := (img.height - side) / 2
    pilCrop img left top (left + side) (top + side)

/-- Models the processing steps of `download_and_process_youtube_cover`
(cover_processor.py, lines 136-141) on an already decoded image:
convert to RGB, centre-crop, and resize to 480x480 exactly when `force_480`
is set or the cropped width is below 480.  `convertRGB` models
`Image.convert("RGB")` and `resizeLanczos` models
`Image.resize((w, h), Image.LANCZOS)`. -/
def processCover (convertRGB : PILImage → PILImage)
    (resizeLanczos : PILImage → Nat → Nat → PILImage)
    (force480 : Bool) (img : PILImage) : PILImage :=
  let image := crop_center_square (convertRGB img)
  if force480 || decide (image.width < 480) then resizeLanczos image 480 480
  else image

/-- Models lines 136-144 of `download_and_process_youtube_cover` at the byte
level: decode the downloaded bytes (`Image.open`), process, and re-encode as
JPEG quality 95 (`encodeJpeg95` models `image.save(buffer, format="JPEG",
quality=95)`).  `none` when the bytes do not decode. -/
def normalizeCoverBytes (decode : Bytes → Option PILImage)
    (convertRGB : PILImage → PILImage)
    (resizeLanczos : PILImage → Nat → Nat → PILImage)
    (encodeJpeg95 : PILImage → Bytes)
    (raw : Bytes) (force480 : Bool) : Option Bytes :=
  match decode raw with
  | none => none
  | some img => some (encodeJpeg95 (processCover convertRGB resizeLanczos force480 img))

/-! ## Predicates used by the claims -/

/-- The generic-fallback gap guard: every byte-valued tag entry that the
reader would enumerate through its `APIC` prefix also contains `PICTURE`
in its upper-cased key, so that the generic removal (which only deletes
`PICTURE`-containing keys) reaches it.  Trivially true for the four
concretely supported variants. -/
def purgeCoveredB : Container → Bool
  | .generic (some tags) =>
    tags.all fun kv =>
      match kv.2 with
      | .bytesVal _ => !(strStarts "APIC" kv.1) || subStr "PICTURE" (strUpperL kv.1)
      | _ => true
  | _ => true

/-- No artist tag is present under the container's artist key convention. -/
def artistAbsentB : Container → Bool
  | .mp3 none => true
  | .mp3 (some frames) =>
    ["TPE1", "TPE2", "TCOM"].all fun k => (frames.find? (fun f => f.fkey == k)).isNone
  | .flac _ none => true
  | .flac _ (some prs) => !(vcHas "artist" prs)
  | .mp4 none => true
  | .mp4 (some ts) => (ts.lookup "©ART").isNone
  | .ogg tags => !(vcHas "artist" tags)
  | .generic none => true
  | .generic (some ts) =>
    ["artist", "ARTIST", "TPE1", "©ART"].all fun k => (ts.lookup k).isNone

/-- No album tag is present under the container's album key convention. -/
def albumAbsentB : Container → Bool
  | .mp3 none => true
  | .mp3 (some frames) =>
    ["TALB"].all fun k => (frames.find? (fun f => f.fkey == k)).isNone
  | .flac _ none => true
  | .flac _ (some prs) => !(vcHas "album" prs)
  | .mp4 none => true
  | .mp4 (some ts) => (ts.lookup "©alb").isNone
  | .ogg tags => !(vcHas "album" tags)
  | .generic none => true
  | .generic (some ts) =>
    ["album", "ALBUM", "TALB", "©alb"].all fun k => (ts.lookup k).isNone

/-- No title tag is present under the container's title key convention. -/
def titleAbsentB : Container → Bool
  | .mp3 none => true
  | .mp3 (some frames) =>
    ["TIT2", "TIT1"].all fun k => (frames.find? (fun f => f.fkey == k)).isNone
  | .flac _ none => true
  | .flac _ (some prs) => !(vcHas "title" prs)
  | .mp4 none => true
  | .mp4 (some ts) => (ts.lookup "©nam").isNone
  | .ogg tags => !(vcHas "title" tags)
  | .generic none => true
  | .generic (some ts) =>
    ["title", "TITLE", "TIT2", "©nam"].all fun k => (ts.lookup k).isNone

/-! ## General lemmas -/

theorem lookup_block_ne {β : Type} (k k' : String) (v : β) (c : Bool)
    (rest : List (String × β)) (h : (k == k') = false) :
    List.lookup k ((if c then [(k', v)] else []) ++ rest) = List.lookup k rest := by
  cases c <;> simp [List.lookup_cons, h]

theorem lookup_block_self {β : Type} (k : String) (v : β) (c : Bool)
    (rest : List (String × β)) :
    List.lookup k ((if c then [(k, v)] else []) ++ rest)
      = if c then some v else List.lookup k rest := by
  cases c <;> simp [List.lookup_cons]

theorem lookup_block_ne_bare {β : Type} (k k' : String) (v : β) (c : Bool)
    (h : (k == k') = false) :
    List.lookup k (if c then [(k', v)] else []) = none := by
  cases c <;> simp [List.lookup_cons, h]

/-! ## C5: the query-URL builder -/

section C5

variable (theme resolution : String) (sources : List String)
variable (country artist album identifier : String)

theorem pyParams_lookup_theme :
    (pyParams theme resolution sources country artist album identifier).lookup "theme"
      = if !theme.isEmpty && (strLowerL theme == "light" || strLowerL theme == "dark")
        then some (strLowerL theme) else none := by
  unfold pyParams
  simp only [List.append_assoc]
  rw [lookup_block_self, lookup_block_ne _ _ _ _ _ (by decide),
    lookup_block_ne _ _ _ _ _ (by decide), lookup_block_ne _ _ _ _ _ (by decide),
    lookup_block_ne _ _ _ _ _ (by decide), lookup_block_ne _ _ _ _ _ (by decide),
    lookup_block_ne_bare _ _ _ _ (by decide)]

theorem pyParams_lookup_resolution :
    (pyParams theme resolution sources country artist album identifier).lookup "resolution"
      = if !resolution.isEmpty then some resolution else none := by
  unfold pyParams
  simp only [List.append_assoc]
  rw [lookup_block_ne _ _ _ _ _ (by decide), lookup_block_self,
    lookup_block_ne _ _ _ _ _ (by decide), lookup_block_ne _ _ _ _ _ (by decide),
    lookup_block_ne _ _ _ _ _ (by decide), lookup_block_ne _ _ _ _ _ (by decide),
    lookup_block_ne_bare _ _ _ _ (by decide)]

theorem pyParams_lookup_sources :
    (pyParams theme resolution sources country artist album identifier).lookup "sources"
      = if !sources.isEmpty then
          some (String.intercalate ","
            ((sources.filter (fun s => !s.isEmpty)).map (fun s => pyStrip (strLowerL s))))
        else none := by
  unfold pyParams
  simp only [List.append_assoc]
  rw [lookup_block_ne _ _ _ _ _ (by decide), lookup_block_ne _ _ _ _ _ (by decide),
    lookup_block_self, lookup_block_ne _ _ _ _ _ (by decide),
    lookup_block_ne _ _ _ _ _ (by decide), lookup_block_ne _ _ _ _ _ (by decide),
    lookup_block_ne_bare _ _ _ _ (by decide)]

theorem pyParams_lookup_country :
    (pyParams theme resolution sources country artist album identifier).lookup "country"
      = if !country.isEmpty then some country else none := by
  unfold pyParams
  simp only [List.append_assoc]
  rw [lookup_block_ne _ _ _ _ _ (by decide), lookup_block_ne _ _ _ _ _ (by decide),
    lookup_block_ne _ _ _ _ _ (by decide), lookup_block_self,
    lookup_block_ne _ _ _ _ _ (by decide), lookup_block_ne _ _ _ _ _ (by decide),
    lookup_block_ne_bare _ _ _ _ (by decide)]

theorem pyParams_lookup_artist :
    (pyParams theme resolution sources country artist album identifier).lookup "artist"
      = if !artist.isEmpty then some artist else none := by
  unfold pyParams
  simp only [List.append_assoc]
  rw [lookup_block_ne _ _ _ _ _ (by decide), lookup_block_ne _ _ _ _ _ (by decide),
    lookup_block_ne _ _ _ _ _ (by decide), lookup_block_ne _ _ _ _ _ (by decide),
    lookup_block_self, lookup_block_ne _ _ _ _ _ (by decide),
    lookup_block_ne_bare _ _ _ _ (by decide)]

theorem pyParams_lookup_album :
    (pyParams theme resolution sources country artist album identifier).lookup "album"
      = if !album.isEmpty then some album else none := by
  unfold pyParams
  simp only [List.append_assoc]
  rw [lookup_block_ne _ _ _ _ _ (by decide), lookup_block_ne _ _ _ _ _ (by decide),
    lookup_block_ne _ _ _ _ _ (by decide), lookup_block_ne _ _ _ _ _ (by decide),
    lookup_block_ne _ _ _ _ _ (by decide), lookup_block_self,
    lookup_block_ne_bare _ _ _ _ (by decide)]

theorem pyParams_lookup_identifier :
    (pyParams theme resolution sources country artist album identifier).lookup "identifier"
      = if !identifier.isEmpty then some identifier else none := by
  unfold pyParams
  simp only [List.append_assoc]
  rw [lookup_block_ne _ _ _ _ _ (by decide), lookup_block_ne _ _ _ _ _ (by decide),
    lookup_block_ne _ _ _ _ _ (by decide), lookup_block_ne _ _ _ _ _ (by decide),
    lookup_block_ne _ _ _ _ _ (by decide), lookup_block_ne _ _ _ _ _ (by decide)]
  cases h : (!identifier.isEmpty) <;>
    simp [List.lookup_cons]

end C5

theorem opt_ite_ne_none {α : Type} (c : Prop) [Decidable c] (v : α) :
    ((if c then some v else none) ≠ none) ↔ c := by
  split <;> simp_all

/-- C5, counterexample.  The claim's "a field is included if and only if it
is non-empty" fails: a non-empty `theme` of `"blue"` is dropped (only
`light`/`dark` survive the filter), and a sources entry `"A "` is stripped
as well as lower-cased, so its value is not merely lower-cased and
comma-joined (that would give `a+` after encoding, not `a`). -/
theorem c5_url_builder_counterexample :
    build_url_with_params "https://x.test" "blue" "" [] "" "" "" "" = "https://x.test"
    ∧ build_url_with_params "https://x.test" "" "" ["A "] "" "" "" ""
        = "https://x.test?sources=a" := by
  exact ⟨rfl, rfl⟩

/-- C5, amended.  The query-URL builder includes `resolution`, `country`,
`artist`, `album` and `identifier` iff non-empty; `theme` iff non-empty
AND lower-casing to `light` or `dark` (included as its lower-case form);
`sources` iff the list is non-empty, its value the comma-join of the truthy
sources each lower-cased and stripped.  Every included parameter is
percent-encoded by `urlencodeParams` (`quote_plus` on UTF-8 bytes), and the
query string is joined to `base_url` with `&` when `base_url` already
contains `?`, else with `?`; with no parameters `base_url` is returned
unchanged. -/
theorem c5_url_builder_amended (base theme resolution : String)
    (sources : List String) (country artist album identifier : String) :
    ((pyParams theme resolution sources country artist album identifier).lookup "theme" ≠ none
        ↔ (theme ≠ "" ∧ (strLowerL theme = "light" ∨ strLowerL theme = "dark")))
    ∧ ((pyParams theme resolution sources country artist album identifier).lookup "resolution" ≠ none
        ↔ resolution ≠ "")
    ∧ ((pyParams theme resolution sources country artist album identifier).lookup "sources" ≠ none
        ↔ sources ≠ [])
    ∧ ((pyParams theme resolution sources country artist album identifier).lookup "country" ≠ none
        ↔ country ≠ "")
    ∧ ((pyParams theme resolution sources country artist album identifier).lookup "artist" ≠ none
        ↔ artist ≠ "")
    ∧ ((pyParams theme resolution sources country artist album identifier).lookup "album" ≠ none
        ↔ album ≠ "")
    ∧ ((pyParams theme resolution sources country artist album identifier).lookup "identifier" ≠ none
        ↔ identifier ≠ "")
    ∧ (∀ v, (pyParams theme resolution sources country artist album identifier).lookup "theme" = some v
        → v = strLowerL theme)
    ∧ (∀ v, (pyParams theme resolution sources country artist album identifier).lookup "sources" = some v
        → v = String.intercalate ","
            ((sources.filter (fun s => !s.isEmpty)).map (fun s => pyStrip (strLowerL s))))
    ∧ (∀ v, (pyParams theme resolution sources country artist album identifier).lookup "artist" = some v
        → v = artist)
    ∧ (∀ v, (pyParams theme resolution sources country artist album identifier).lookup "album" = some v
        → v = album)
    ∧ (pyParams theme resolution sources country artist album identifier ≠ []
        → build_url_with_params base theme resolution sources country artist album identifier
          = base ++ (if strContainsChar base '?' then "&" else "?")
            ++ urlencodeParams (pyParams theme resolution sources country artist album identifier))
    ∧ (pyParams theme resolution sources country artist album identifier = []
        → build_url_with_params base theme resolution sources country artist album identifier = base) := by
  refine ⟨?_, ?_, ?_, ?_, ?_, ?_, ?_, ?_, ?_, ?_, ?_, ?_, ?_⟩
  · rw [pyParams_lookup_theme, opt_ite_ne_none]
    simp [Bool.eq_false_iff, String.isEmpty_iff]
  · rw [pyParams_lookup_resolution, opt_ite_ne_none]
    simp [Bool.eq_false_iff, String.isEmpty_iff]
  · rw [pyParams_lookup_sources, opt_ite_ne_none]
    simp
  · rw [pyParams_lookup_country, opt_ite_ne_none]
    simp [Bool.eq_false_iff, String.isEmpty_iff]
  · rw [pyParams_lookup_artist, opt_ite_ne_none]
    simp [Bool.eq_false_iff, String.isEmpty_iff]
  · rw [pyParams_lookup_album, opt_ite_ne_none]
    simp [Bool.eq_false_iff, String.isEmpty_iff]
  · rw [pyParams_lookup_identifier, opt_ite_ne_none]
    simp [Bool.eq_false_iff, String.isEmpty_iff]
  · intro v hv
    rw [pyParams_lookup_theme] at hv
    split at hv
    · exact (Option.some_inj.mp hv).symm
    · exact absurd hv (by simp)
  · intro v hv
    rw [pyParams_lookup_sources] at hv
    split at hv
    · exact (Option.some_inj.mp hv).symm
    · exact absurd hv (by simp)
  · intro v hv
    rw [pyParams_lookup_artist] at hv
    split at hv
    · exact (Option.some_inj.mp hv).symm
    · exact absurd hv (by simp)
  · intro v hv
    rw [pyParams_lookup_album] at hv
    split at hv
    · exact (Option.some_inj.mp hv).symm
    · exact absurd hv (by simp)
  · intro h
    have hne : (pyParams theme resolution sources country artist album identifier).isEmpty = false :=
      List.isEmpty_eq_false.mpr h
    simp only [build_url_with_params, hne, Bool.not_false, if_pos]
  · intro h
    simp only [build_url_with_params, h]
    rfl

/-! ## Vorbis-comment dictionary lemmas -/

theorem vcGet_append {α : Type} (k : String) (t₁ t₂ : List (String × α)) :
    vcGet k (t₁ ++ t₂) = vcGet k t₁ ++ vcGet k t₂ := by
  simp [vcGet, List.filter_append]

theorem vcGet_vcDel_self {α : Type} (k k' : String) (t : List (String × α))
    (h : strLowerL k' = strLowerL k) : vcGet k (vcDel k' t) = [] := by
  unfold vcGet vcDel
  rw [List.filter_filter]
  have : List.filter
      (fun kv => (strLowerL kv.1 == strLowerL k) && (strLowerL kv.1 != strLowerL k')) t = [] := by
    rw [List.filter_eq_nil_iff]
    intro kv _
    by_cases hk : strLowerL kv.1 = strLowerL k <;> simp [hk, bne, h]
  rw [this, List.map_nil]

theorem vcGet_vcDel_ne {α : Type} (k k' : String) (t : List (String × α))
    (h : strLowerL k ≠ strLowerL k') : vcGet k (vcDel k' t) = vcGet k t := by
  unfold vcGet vcDel
  rw [List.filter_filter]
  congr 1
  apply List.filter_congr
  intro kv _
  by_cases hk : strLowerL kv.1 = strLowerL k <;> simp [hk, bne, h]

/-! ## Writer lemmas -/

theorem strStarts_apic_key (d : String) : strStarts "APIC" ("APIC:" ++ d) = true := by
  have : ("APIC:" ++ d).data = 'A' :: 'P' :: 'I' :: 'C' :: ':' :: d.data := by
    rw [String.data_append]
    rfl
  simp [strStarts, this, List.isPrefixOf]

/-- The MP3 reader yields nothing from frames that survived the `APIC`
key filter. -/
theorem mp3_read_filtered (frames : List Mp3Frame) :
    ((frames.filter fun f => !(strStarts "APIC" f.fkey)).filterMap fun f =>
      if strStarts "APIC" f.fid then
        match f.dataOpt with
        | some d => if d.isEmpty then none else some ((d : Bytes), (none : Option Nat), (none : Option Nat))
        | none => none
      else none) = [] := by
  rw [List.filterMap_eq_nil_iff]
  intro f hf
  rw [List.mem_filter] at hf
  cases f with
  | apic desc mime data =>
    have : strStarts "APIC" (Mp3Frame.apic desc mime data).fkey = true :=
      strStarts_apic_key desc
    rw [this] at hf
    simp at hf
  | txtFrame fid v =>
    by_cases h2 : strStarts "APIC" (Mp3Frame.txtFrame fid v).fid <;>
      simp [h2, Mp3Frame.dataOpt]

theorem lookup_append_last {α : Type} (k : String) (v : α) (ts : List (String × α))
    (h : ∀ kv ∈ ts, (kv.1 == k) = false) : (ts ++ [(k, v)]).lookup k = some v := by
  induction ts with
  | nil => simp [List.lookup_cons]
  | cons kv rest ih =>
    rw [List.cons_append, List.lookup_cons]
    have hk := h kv (by simp)
    have hkk : (k == kv.1) = false := by
      rw [beq_eq_false_iff_ne] at hk ⊢
      exact fun hc => hk hc.symm
    simp only [hkk]
    exact ih fun x hx => h x (by simp [hx])

theorem lookup_map_set {α : Type} (k : String) (v : α) (ts : List (String × α))
    (h : ts.any (·.1 == k) = true) :
    (ts.map fun kv => if kv.1 == k then (k, v) else kv).lookup k = some v := by
  induction ts with
  | nil => simp at h
  | cons kv rest ih =>
    rw [List.map_cons]
    by_cases hk : (kv.1 == k) = true
    · rw [if_pos hk, List.lookup_cons]
      simp
    · have hk' : (kv.1 == k) = false := by
        cases hb : (kv.1 == k)
        · rfl
        · exact absurd hb hk
      rw [if_neg hk, List.lookup_cons]
      have hkk : (k == kv.1) = false := by
        rw [beq_eq_false_iff_ne] at hk' ⊢
        exact fun hc => hk' hc.symm
      simp only [hkk]
      apply ih
      simpa [List.any_cons, hk'] using h

theorem lookup_dictSet_self {α : Type} (k : String) (v : α) (ts : List (String × α)) :
    (dictSet k v ts).lookup k = some v := by
  unfold dictSet
  by_cases hany : ts.any (·.1 == k) = true
  · rw [if_pos hany]
    exact lookup_map_set k v ts hany
  · rw [if_neg hany]
    apply lookup_append_last
    intro kv hkv
    cases hb : (kv.1 == k)
    · rfl
    · exact absurd (List.any_eq_true.mpr ⟨kv, hkv, hb⟩) hany

/-! ## C1: embed / read_pictures round trip -/

/-- C1, counterexample.  The round-trip claim fails on FLAC and Ogg Vorbis.
FLAC: `embed_artwork` calls `add_picture` without clearing the existing
pictures, so a file that already had a cover reads back two pictures after a
successful embed.  Ogg Vorbis: the reader queries the case-insensitive
Vorbis comment dictionary under both spellings of `METADATA_BLOCK_PICTURE`,
so even on a previously artwork-free file the single embedded picture is
enumerated twice. -/
theorem c1_roundtrip_counterexample :
    ((embed_artwork (.flac [⟨3, "image/png", "old", 10, 10, [9]⟩] none) [1] "image/jpeg").1 = true
      ∧ iter_embedded_artwork
          (embed_artwork (.flac [⟨3, "image/png", "old", 10, 10, [9]⟩] none) [1] "image/jpeg").2
        = [([9], some 10, some 10), ([1], some 0, some 0)])
    ∧ ((embed_artwork (.ogg []) [1] "image/jpeg").1 = true
      ∧ iter_embedded_artwork (embed_artwork (.ogg []) [1] "image/jpeg").2
        = [([1], some 0, some 0), ([1], some 0, some 0)]) := by
  exact ⟨⟨rfl, rfl⟩, ⟨rfl, rfl⟩⟩

/-- C1, amended.  For non-empty image bytes, `embed_artwork` succeeds on
every classified variant and: on MP3 and MP4 it first removes all existing
picture entries and a subsequent read yields exactly the one new picture;
on FLAC it appends the new picture after the existing ones (no removal);
on Ogg Vorbis it replaces all picture comments with the single new one, but
a subsequent read enumerates it once per key-case variant, i.e. twice. -/
theorem c1_roundtrip_amended (img : Bytes) (mime : String)
    (t3 : Option (List Mp3Frame)) (ts4 : List (String × Mp4Val))
    (pics : List FlacPicture) (ft : Option (List (String × String)))
    (ot : List (String × OggVal)) (himg : img ≠ []) :
    ((embed_artwork (.mp3 t3) img mime).1 = true
      ∧ iter_embedded_artwork (embed_artwork (.mp3 t3) img mime).2 = [(img, none, none)])
    ∧ ((embed_artwork (.mp4 (some ts4)) img mime).1 = true
      ∧ iter_embedded_artwork (embed_artwork (.mp4 (some ts4)) img mime).2 = [(img, none, none)])
    ∧ ((embed_artwork (.flac pics ft) img mime).1 = true
      ∧ iter_embedded_artwork (embed_artwork (.flac pics ft) img mime).2
        = iter_embedded_artwork (.flac pics ft) ++ [(img, some 0, some 0)])
    ∧ ((embed_artwork (.ogg ot) img mime).1 = true
      ∧ iter_embedded_artwork (embed_artwork (.ogg ot) img mime).2
        = [(img, some 0, some 0), (img, some 0, some 0)]) := by
  have himgE : img.isEmpty = false := by
    simp [himg]
  have hc : strStarts "APIC" "APIC" = true := by decide
  refine ⟨⟨rfl, ?_⟩, ⟨rfl, ?_⟩, ⟨rfl, ?_⟩, ⟨rfl, ?_⟩⟩
  · show (((t3.getD []).filter fun f => !(strStarts "APIC" f.fkey))
        ++ [Mp3Frame.apic "Cover" mime img]).filterMap _ = _
    rw [List.filterMap_append, mp3_read_filtered]
    simp [List.filterMap_cons, Mp3Frame.fid, Mp3Frame.dataOpt, hc, himgE, himg]
  · simp only [embed_artwork, iter_embedded_artwork]
    rw [lookup_dictSet_self]
    simp [List.filterMap_cons, himgE, himg]
  · simp only [embed_artwork, iter_embedded_artwork]
    rw [List.filterMap_append]
    simp [List.filterMap_cons, himgE, himg]
  · simp only [embed_artwork, iter_embedded_artwork, vcSet]
    rw [vcGet_append, vcGet_append,
      vcGet_vcDel_self "METADATA_BLOCK_PICTURE" "METADATA_BLOCK_PICTURE" ot (by decide),
      vcGet_vcDel_self "metadata_block_picture" "METADATA_BLOCK_PICTURE" ot (by decide)]
    have hmb : (strLowerL "METADATA_BLOCK_PICTURE" == strLowerL "metadata_block_picture") = true := by
      decide
    simp [vcGet, List.filterMap_cons, List.filter_cons, hmb, Function.comp, himgE, himg]

/-- C1, witness for the amended theorem at image bytes `[1]`. -/
theorem c1_roundtrip_witness :
    iter_embedded_artwork (embed_artwork (.mp3 none) [1] "image/jpeg").2 = [([1], none, none)]
    ∧ iter_embedded_artwork (embed_artwork (.mp4 (some [])) [1] "image/jpeg").2 = [([1], none, none)] := by
  exact ⟨(c1_roundtrip_amended [1] "image/jpeg" none [] [] none [] (by decide)).1.2,
    (c1_roundtrip_amended [1] "image/jpeg" none [] [] none [] (by decide)).2.1.2⟩

/-! ## Judge lemmas -/

/-- When some enumerated picture is determinately non-square, the scan loop
answers `false` and leaves the purged container behind (whatever the flags
accumulated so far). -/
theorem hasArtLoop_finds_bad (dec : Bytes → Option (Nat × Nat)) (c : Container) :
    ∀ (pics : List PicEntry) (f sf : Bool),
      (∃ p ∈ pics, is_square_image dec p.1 p.2.1 p.2.2 = some false) →
      hasArtLoop dec c pics f sf = (false, (remove_embedded_artwork c).2) := by
  intro pics
  induction pics with
  | nil => intro f sf h; simp at h
  | cons p rest ih =>
    intro f sf h
    obtain ⟨d, w, hn⟩ := p
    cases hsq : is_square_image dec d w hn with
    | none =>
      simp only [hasArtLoop, hsq]
      apply ih
      rcases h with ⟨q, hq, hbad⟩
      rcases List.mem_cons.mp hq with rfl | hq'
      · exact absurd hbad (by simp [hsq])
      · exact ⟨q, hq', hbad⟩
    | some b =>
      cases b with
      | false => simp [hasArtLoop, hsq]
      | true =>
        simp only [hasArtLoop, hsq]
        apply ih
        rcases h with ⟨q, hq, hbad⟩
        rcases List.mem_cons.mp hq with rfl | hq'
        · exact absurd hbad (by simp [hsq])
        · exact ⟨q, hq', hbad⟩

/-- When no enumerated picture is determinately non-square, the scan loop
started with `artwork_found = true` answers `true` and leaves the container
untouched. -/
theorem hasArtLoop_all_ok (dec : Bytes → Option (Nat × Nat)) (c : Container) :
    ∀ (pics : List PicEntry) (sf : Bool),
      (∀ p ∈ pics, is_square_image dec p.1 p.2.1 p.2.2 ≠ some false) →
      hasArtLoop dec c pics true sf = (true, c) := by
  intro pics
  induction pics with
  | nil => intro sf _; cases sf <;> rfl
  | cons p rest ih =>
    intro sf h
    obtain ⟨d, w, hn⟩ := p
    cases hsq : is_square_image dec d w hn with
    | none =>
      simp only [hasArtLoop, hsq]
      exact ih _ fun q hq => h q (List.mem_cons_of_mem _ hq)
    | some b =>
      cases b with
      | false => exact absurd hsq (h (d, w, hn) (List.mem_cons_self _ _))
      | true =>
        simp only [hasArtLoop, hsq]
        exact ih _ fun q hq => h q (List.mem_cons_of_mem _ hq)

theorem lookup_filter_keep {α : Type} (p : String × α → Bool) (k : String)
    (ts : List (String × α)) (h : ∀ kv : String × α, kv.1 = k → p kv = true) :
    (ts.filter p).lookup k = ts.lookup k := by
  induction ts with
  | nil => rfl
  | cons kv rest ih =>
    obtain ⟨k1, v1⟩ := kv
    cases hp : p (k1, v1)
    · have hne : k1 ≠ k := fun hc => by
        rw [h (k1, v1) hc] at hp
        exact Bool.noConfusion hp
      have hkk : (k == k1) = false := by
        rw [beq_eq_false_iff_ne]
        exact fun hc => hne hc.symm
      rw [List.filter_cons, if_neg (by simp [hp]), List.lookup_cons]
      simp only [hkk]
      exact ih
    · rw [List.filter_cons, if_pos hp, List.lookup_cons, List.lookup_cons]
      cases k == k1
      · exact ih
      · rfl

theorem lookup_filter_self_none {α : Type} (k : String) (ts : List (String × α)) :
    (ts.filter fun kv => kv.1 != k).lookup k = none := by
  induction ts with
  | nil => rfl
  | cons kv rest ih =>
    obtain ⟨k1, v1⟩ := kv
    cases hp : ((k1, v1).1 != k)
    · rw [List.filter_cons, if_neg (by simp [hp])]
      exact ih
    · have hne : k1 ≠ k := by
        simpa [bne] using hp
      have hkk : (k == k1) = false := by
        rw [beq_eq_false_iff_ne]
        exact fun hc => hne hc.symm
      rw [List.filter_cons, if_pos hp, List.lookup_cons]
      simp only [hkk]
      exact ih

/-- After the removal operation, the reader enumerates nothing — on the four
concrete variants unconditionally, and on the generic fallback whenever
every `APIC`-prefixed byte entry also carries `PICTURE` in its key. -/
theorem iter_after_remove (c : Container) (hcov : purgeCoveredB c = true) :
    iter_embedded_artwork (remove_embedded_artwork c).2 = [] := by
  cases c with
  | mp3 tags =>
    cases tags with
    | none => rfl
    | some frames =>
      show (List.filterMap _ (frames.filter _)) = []
      exact mp3_read_filtered frames
  | flac pictures tags => rfl
  | mp4 tags =>
    cases tags with
    | none => rfl
    | some ts =>
      simp only [remove_embedded_artwork]
      cases hl : ts.lookup "covr" with
      | none =>
        rw [if_neg (by simp [hl])]
        simp only [iter_embedded_artwork]
        rw [hl]
      | some v =>
        rw [if_pos (by simp [hl])]
        simp only [iter_embedded_artwork]
        rw [lookup_filter_self_none]
  | ogg tags =>
    simp only [remove_embedded_artwork]
    by_cases h1 : vcHas "METADATA_BLOCK_PICTURE" tags = true
    · rw [if_pos h1]
      have g2 : vcGet "metadata_block_picture" (vcDel "METADATA_BLOCK_PICTURE" tags) = [] :=
        vcGet_vcDel_self _ _ _ (by decide)
      have h2 : ¬(vcHas "metadata_block_picture" (vcDel "METADATA_BLOCK_PICTURE" tags) = true) := by
        unfold vcHas
        rw [g2]
        simp
      rw [if_neg h2]
      simp only [iter_embedded_artwork]
      rw [vcGet_vcDel_self "METADATA_BLOCK_PICTURE" "METADATA_BLOCK_PICTURE" tags (by decide), g2]
      rfl
    · rw [if_neg h1]
      by_cases h2 : vcHas "metadata_block_picture" tags = true
      · rw [if_pos h2]
        simp only [iter_embedded_artwork]
        rw [vcGet_vcDel_self "METADATA_BLOCK_PICTURE" "metadata_block_picture" tags (by decide),
          vcGet_vcDel_self "metadata_block_picture" "metadata_block_picture" tags (by decide)]
        rfl
      · rw [if_neg h2]
        simp only [iter_embedded_artwork]
        have g1 : vcGet "METADATA_BLOCK_PICTURE" tags = [] := by
          unfold vcHas at h1
          simpa using h1
        have g2 : vcGet "metadata_block_picture" tags = [] := by
          unfold vcHas at h2
          simpa using h2
        rw [g1, g2]
        rfl
  | generic tags =>
    cases tags with
    | none => rfl
    | some ts =>
      simp only [remove_embedded_artwork, iter_embedded_artwork]
      rw [List.filterMap_eq_nil_iff]
      intro kv hkv
      rw [List.mem_filter] at hkv
      obtain ⟨hmem, hkeep⟩ := hkv
      have hnp : subStr "PICTURE" (strUpperL kv.1) = false := by
        cases hs : subStr "PICTURE" (strUpperL kv.1)
        · rfl
        · rw [hs] at hkeep
          exact absurd hkeep (by simp)
      rw [hnp, Bool.false_or]
      cases ha : strStarts "APIC" kv.1
      · simp
      · cases hv : kv.2 with
        | bytesVal b =>
          unfold purgeCoveredB at hcov
          rw [List.all_eq_true] at hcov
          have hk := hcov kv hmem
          rw [hv] at hk
          rw [ha, hnp] at hk
          simp at hk
        | strVal s => simp
        | listVal l => simp

/-! ## C2: self-healing purge on a determinately non-square picture -/

/-- C2, counterexample.  On a generic (unsupported-format) container holding
a non-square picture under the byte-typed key `"APICX"`, `evaluate` does
invoke the removal operation and returns `NoArtwork`, but the removal only
deletes keys containing `PICTURE`, so a second read still enumerates the
offending picture — the sequence is not empty. -/
theorem c2_purge_counterexample :
    (evaluate (fun _ => some (300, 500)) (.generic (some [("APICX", .bytesVal [7])]))).1
      = .NoArtwork
    ∧ iter_embedded_artwork
        (evaluate (fun _ => some (300, 500)) (.generic (some [("APICX", .bytesVal [7])]))).2
      = [([7], none, none)] := by
  exact ⟨rfl, rfl⟩

/-- C2, amended.  Whenever some enumerated picture is determinately
non-square, `evaluate` invokes the whole-file removal and returns
`NoArtwork`; and a subsequent read returns the empty sequence on the Mp3,
Flac, Mp4 and OggVorbis variants unconditionally, and on the generic
fallback only when every `APIC`-prefixed byte entry also carries `PICTURE`
in its key (otherwise the purge misses it). -/
theorem c2_purge_amended (dec : Bytes → Option (Nat × Nat)) (c : Container)
    (hcov : purgeCoveredB c = true)
    (hbad : ∃ p ∈ iter_embedded_artwork c, is_square_image dec p.1 p.2.1 p.2.2 = some false) :
    (evaluate dec c).1 = .NoArtwork
    ∧ (evaluate dec c).2 = (remove_embedded_artwork c).2
    ∧ iter_embedded_artwork (evaluate dec c).2 = [] := by
  have hloop := hasArtLoop_finds_bad dec c (iter_embedded_artwork c) false false hbad
  have h2 : evaluate dec c = (.NoArtwork, (remove_embedded_artwork c).2) := by
    unfold evaluate has_embedded_artwork_on
    rw [hloop]
    rfl
  refine ⟨by rw [h2], by rw [h2], ?_⟩
  rw [h2]
  exact iter_after_remove c hcov

/-- C2, witness: a FLAC container with a 300x500 cover is purged and reads
back empty. -/
theorem c2_purge_witness :
    (evaluate (fun _ => none) (.flac [⟨3, "image/jpeg", "d", 300, 500, [7]⟩] none)).1
      = .NoArtwork
    ∧ iter_embedded_artwork
        (evaluate (fun _ => none) (.flac [⟨3, "image/jpeg", "d", 300, 500, [7]⟩] none)).2 = [] := by
  have h := c2_purge_amended (fun _ => none)
    (.flac [⟨3, "image/jpeg", "d", 300, 500, [7]⟩] none) (by decide)
    ⟨([7], some 300, some 500), by decide, by decide⟩
  exact ⟨h.1, h.2.2⟩

/-! ## C3: only indeterminate or square pictures -/

/-- C3, confirmed.  For a classified container whose picture sequence is
non-empty and contains no determinately non-square picture, `evaluate`
returns `AcceptableArtwork` — in particular when every picture's squareness
is indeterminate (no usable inline dimensions and the decoder fails), since
a decode failure makes `_is_square_image` answer `none`, never `false`. -/
theorem c3_indeterminate_acceptable (dec : Bytes → Option (Nat × Nat)) (c : Container)
    (hne : iter_embedded_artwork c ≠ [])
    (hok : ∀ p ∈ iter_embedded_artwork c, is_square_image dec p.1 p.2.1 p.2.2 ≠ some false) :
    (evaluate dec c).1 = .AcceptableArtwork := by
  unfold evaluate has_embedded_artwork_on
  cases hiter : iter_embedded_artwork c with
  | nil => exact absurd hiter hne
  | cons p rest =>
    obtain ⟨d, w, hn⟩ := p
    have hokr : ∀ q ∈ rest, is_square_image dec q.1 q.2.1 q.2.2 ≠ some false := by
      intro q hq
      exact hok q (by rw [hiter]; exact List.mem_cons_of_mem _ hq)
    cases hsq : is_square_image dec d w hn with
    | none =>
      simp only [hasArtLoop, hsq]
      rw [hasArtLoop_all_ok dec c rest false hokr]
      rfl
    | some b =>
      cases b with
      | false =>
        exact absurd hsq (hok (d, w, hn) (by rw [hiter]; exact List.mem_cons_self _ _))
      | true =>
        simp only [hasArtLoop, hsq]
        rw [hasArtLoop_all_ok dec c rest true hokr]
        rfl

/-- C3, witness: a FLAC picture with zero inline dimensions and a failing
decoder (indeterminate squareness) is still judged acceptable. -/
theorem c3_indeterminate_witness :
    (evaluate (fun _ => none) (.flac [⟨3, "image/jpeg", "d", 0, 0, [7]⟩] none)).1
      = .AcceptableArtwork := by
  exact c3_indeterminate_acceptable (fun _ => none)
    (.flac [⟨3, "image/jpeg", "d", 0, 0, [7]⟩] none) (by decide)
    (by decide)

/-! ## C4: verdict totality -/

/-- C4, confirmed.  On any classified container, `evaluate` is total and
yields exactly one of the three verdicts, and on an empty picture sequence
it yields `NoArtwork`. -/
theorem c4_verdict_totality (dec : Bytes → Option (Nat × Nat)) (c : Container) :
    ((evaluate dec c).1 = .NoArtwork ∨ (evaluate dec c).1 = .AcceptableArtwork
      ∨ (evaluate dec c).1 = .UnacceptableArtwork)
    ∧ (iter_embedded_artwork c = [] → (evaluate dec c).1 = .NoArtwork) := by
  constructor
  · cases h : (has_embedded_artwork_on dec c).1 <;> simp [evaluate, h]
  · intro h
    unfold evaluate has_embedded_artwork_on
    rw [h]
    rfl

/-- C4, witness at an MP3 container without tags. -/
theorem c4_verdict_witness :
    (evaluate (fun _ => none) (.mp3 none)).1 = .NoArtwork := by
  exact (c4_verdict_totality (fun _ => none) (.mp3 none)).2 rfl

/-! ## C10: the judge never propagates an exception -/

/-- C10, confirmed.  `has_embedded_artwork` is a total boolean answer: when
mutagen is unavailable, the path does not exist, opening raises, or the
container cannot be parsed, it answers `false` rather than an error. -/
theorem c10_judge_no_exception (dec : Bytes → Option (Nat × Nat))
    (m e : Bool) (o : OpenRes) :
    (has_embedded_artwork dec m e o = true ∨ has_embedded_artwork dec m e o = false)
    ∧ (m = false → has_embedded_artwork dec m e o = false)
    ∧ (e = false → has_embedded_artwork dec m e o = false)
    ∧ (o = .raisesErr → has_embedded_artwork dec m e o = false)
    ∧ (o = .noneFile → has_embedded_artwork dec m e o = false) := by
  refine ⟨?_, ?_, ?_, ?_, ?_⟩
  · cases h : has_embedded_artwork dec m e o
    · right; rfl
    · left; rfl
  · intro hm
    subst hm
    rfl
  · intro he
    subst he
    cases m <;> rfl
  · intro ho
    subst ho
    cases m <;> cases e <;> rfl
  · intro ho
    subst ho
    cases m <;> cases e <;> rfl

/-- C10, witness: mutagen unavailable yields `false`. -/
theorem c10_judge_witness :
    has_embedded_artwork (fun _ => none) false true (.parsed (.mp3 none)) = false := by
  exact (c10_judge_no_exception (fun _ => none) false true (.parsed (.mp3 none))).2.1 rfl

/-! ## Metadata lemmas -/

theorem find?_filter_apic (frames : List Mp3Frame) (k : String)
    (hk : strStarts "APIC" k = false) :
    ((frames.filter fun f => !(strStarts "APIC" f.fkey)).find? fun f => f.fkey == k)
      = frames.find? fun f => f.fkey == k := by
  induction frames with
  | nil => rfl
  | cons f rest ih =>
    cases hs : strStarts "APIC" f.fkey
    · rw [List.filter_cons, if_pos (by simp [hs]), List.find?_cons, List.find?_cons]
      cases f.fkey == k
      · exact ih
      · rfl
    · have hfk : (f.fkey == k) = false := by
        rw [beq_eq_false_iff_ne]
        intro hc
        rw [hc] at hs
        rw [hk] at hs
        exact Bool.noConfusion hs
      rw [List.filter_cons, if_neg (by simp [hs]), List.find?_cons, hfk]
      exact ih

theorem firstTagMatch_congr (ops : PyStrOps) (lk1 lk2 : String → Option PyVal) :
    ∀ (ks : List String) (acc : Option String), (∀ k ∈ ks, lk1 k = lk2 k) →
      firstTagMatch ops lk1 ks acc = firstTagMatch ops lk2 ks acc := by
  intro ks
  induction ks with
  | nil => intro acc _; rfl
  | cons k rest ih =>
    intro acc h
    have hk := h k (List.mem_cons_self _ _)
    simp only [firstTagMatch, hk]
    cases lk2 k with
    | none =>
      dsimp only
      exact ih acc fun q hq => h q (List.mem_cons_of_mem _ hq)
    | some v =>
      dsimp only
      cases truthyStr (extract_tag_value ops v)
      · exact ih _ fun q hq => h q (List.mem_cons_of_mem _ hq)
      · rfl

theorem firstTagMatch_all_none (ops : PyStrOps) (lk : String → Option PyVal) :
    ∀ (ks : List String) (acc : Option String), (∀ k ∈ ks, lk k = none) →
      firstTagMatch ops lk ks acc = acc := by
  intro ks
  induction ks with
  | nil => intro acc _; rfl
  | cons k rest ih =>
    intro acc h
    have hk := h k (List.mem_cons_self _ _)
    simp only [firstTagMatch, hk]
    exact ih acc fun q hq => h q (List.mem_cons_of_mem _ hq)

theorem extract_ogg_congr (ops : PyStrOps) (t t' : List (String × OggVal))
    (ha : vcGet "artist" t = vcGet "artist" t')
    (hb : vcGet "album" t = vcGet "album" t')
    (ht : vcGet "title" t = vcGet "title" t') :
    extract_metadata ops (.ogg t) = extract_metadata ops (.ogg t') := by
  simp only [extract_metadata]
  unfold vcHas
  rw [ha, hb, ht]

/-! ## C8: removal preserves artist/album/title -/

/-- C8, confirmed.  On every container variant, the removal operation
touches only artwork entries: the metadata extractor reads the same
artist/album/title before and after. -/
theorem c8_remove_preserves_metadata (ops : PyStrOps) (c : Container) :
    extract_metadata ops (remove_embedded_artwork c).2 = extract_metadata ops c := by
  cases c with
  | mp3 tags =>
    cases tags with
    | none => rfl
    | some frames =>
      simp only [remove_embedded_artwork, extract_metadata]
      have hlk : ∀ (ks : List String), (∀ k ∈ ks, strStarts "APIC" k = false) →
          firstTagMatch ops
            (fun k => (((frames.filter fun f => !(strStarts "APIC" f.fkey)).find?
              fun f => f.fkey == k)).map mp3FrameVal) ks none
          = firstTagMatch ops
            (fun k => ((frames.find? fun f => f.fkey == k)).map mp3FrameVal) ks none := by
        intro ks h
        apply firstTagMatch_congr
        intro k hk
        rw [find?_filter_apic frames k (h k hk)]
      rw [hlk ["TPE1", "TPE2", "TCOM"] (by decide), hlk ["TALB"] (by decide),
        hlk ["TIT2", "TIT1"] (by decide)]
  | flac pictures tags =>
    cases tags <;> rfl
  | mp4 tags =>
    cases tags with
    | none => rfl
    | some ts =>
      simp only [remove_embedded_artwork]
      by_cases hl : (ts.lookup "covr").isSome = true
      · rw [if_pos hl]
        simp only [extract_metadata]
        rw [lookup_filter_keep _ "©ART" ts (by intro kv hkv; rw [hkv]; decide),
          lookup_filter_keep _ "©alb" ts (by intro kv hkv; rw [hkv]; decide),
          lookup_filter_keep _ "©nam" ts (by intro kv hkv; rw [hkv]; decide)]
      · rw [if_neg hl]
  | ogg tags =>
    simp only [remove_embedded_artwork]
    by_cases h1 : vcHas "METADATA_BLOCK_PICTURE" tags = true
    · rw [if_pos h1]
      have g2 : vcGet "metadata_block_picture" (vcDel "METADATA_BLOCK_PICTURE" tags) = [] :=
        vcGet_vcDel_self _ _ _ (by decide)
      have h2 : ¬(vcHas "metadata_block_picture" (vcDel "METADATA_BLOCK_PICTURE" tags) = true) := by
        unfold vcHas
        rw [g2]
        simp
      rw [if_neg h2]
      exact extract_ogg_congr ops _ tags
        (vcGet_vcDel_ne _ _ _ (by decide)) (vcGet_vcDel_ne _ _ _ (by decide))
        (vcGet_vcDel_ne _ _ _ (by decide))
    · rw [if_neg h1]
      by_cases h2 : vcHas "metadata_block_picture" tags = true
      · rw [if_pos h2]
        exact extract_ogg_congr ops _ tags
          (vcGet_vcDel_ne _ _ _ (by decide)) (vcGet_vcDel_ne _ _ _ (by decide))
          (vcGet_vcDel_ne _ _ _ (by decide))
      · rw [if_neg h2]
  | generic tags =>
    cases tags with
    | none => rfl
    | some ts =>
      simp only [remove_embedded_artwork, extract_metadata]
      have hlk : ∀ (ks : List String),
          (∀ k ∈ ks, subStr "PICTURE" (strUpperL k) = false) →
          firstTagMatch ops
            (fun k => (ts.filter fun kv => !(subStr "PICTURE" (strUpperL kv.1))).lookup k) ks none
          = firstTagMatch ops (fun k => ts.lookup k) ks none := by
        intro ks h
        apply firstTagMatch_congr
        intro k hk
        apply lookup_filter_keep
        intro kv hkv
        rw [hkv, h k hk]
        rfl
      rw [hlk ["artist", "ARTIST", "TPE1", "©ART"] (by decide),
        hlk ["album", "ALBUM", "TALB", "©alb"] (by decide),
        hlk ["title", "TITLE", "TIT2", "©nam"] (by decide)]

/-- C8, witness at a concrete MP3 container carrying both a text frame and
a picture frame. -/
theorem c8_remove_witness :
    extract_metadata ⟨fun _ => "", fun _ => "", fun _ => ""⟩
      (remove_embedded_artwork (.mp3 (some [.txtFrame "TPE1" "Artist",
        .apic "Cover" "image/jpeg" [1]]))).2
    = extract_metadata ⟨fun _ => "", fun _ => "", fun _ => ""⟩
      (.mp3 (some [.txtFrame "TPE1" "Artist", .apic "Cover" "image/jpeg" [1]])) := by
  exact c8_remove_preserves_metadata ⟨fun _ => "", fun _ => "", fun _ => ""⟩
    (.mp3 (some [.txtFrame "TPE1" "Artist", .apic "Cover" "image/jpeg" [1]]))

/-! ## C9: metadata extractor error modes and absent fields -/

/-- C9, confirmed (under the mutagen-available precondition the extractor
needs to run at all).  A missing path fails with `FileNotFound`; an
unparseable container (`mutagen.File` raising or returning `None`) fails
with the wrapped unreadable-file error; a parseable container always
succeeds, and a simply absent artist/album/title tag yields `none` for that
field rather than an error. -/
theorem c9_extractor_errors (ops : PyStrOps) :
    (∀ o : OpenRes, get_music_metadata ops true false o = .error .fileNotFound)
    ∧ get_music_metadata ops true true .raisesErr = .error .unreadableFile
    ∧ get_music_metadata ops true true .noneFile = .error .unreadableFile
    ∧ (∀ c : Container,
        get_music_metadata ops true true (.parsed c) = .ok (extract_metadata ops c))
    ∧ (∀ c : Container, artistAbsentB c = true → (extract_metadata ops c).artist = none)
    ∧ (∀ c : Container, albumAbsentB c = true → (extract_metadata ops c).album = none)
    ∧ (∀ c : Container, titleAbsentB c = true → (extract_metadata ops c).title = none) := by
  refine ⟨fun o => rfl, rfl, rfl, fun c => rfl, ?_, ?_, ?_⟩
  · intro c h
    cases c with
    | mp3 tags =>
      cases tags with
      | none => rfl
      | some frames =>
        simp only [artistAbsentB, List.all_eq_true] at h
        simp only [extract_metadata]
        apply firstTagMatch_all_none
        intro k hk
        have := h k hk
        rw [Option.isNone_iff_eq_none] at this
        rw [this]
        rfl
    | flac pictures tags =>
      cases tags with
      | none => rfl
      | some prs =>
        simp only [artistAbsentB] at h
        simp only [extract_metadata]
        rw [if_neg (by simp [Bool.not_eq_true] at h ⊢; exact h)]
    | mp4 tags =>
      cases tags with
      | none => rfl
      | some ts =>
        simp only [artistAbsentB, Option.isNone_iff_eq_none] at h
        simp only [extract_metadata]
        rw [h]
    | ogg tags =>
      simp only [artistAbsentB] at h
      simp only [extract_metadata]
      rw [if_neg (by simp [Bool.not_eq_true] at h ⊢; exact h)]
    | generic tags =>
      cases tags with
      | none => rfl
      | some ts =>
        simp only [artistAbsentB, List.all_eq_true] at h
        simp only [extract_metadata]
        apply firstTagMatch_all_none
        intro k hk
        have := h k hk
        rwa [Option.isNone_iff_eq_none] at this
  · intro c h
    cases c with
    | mp3 tags =>
      cases tags with
      | none => rfl
      | some frames =>
        simp only [albumAbsentB, List.all_eq_true] at h
        simp only [extract_metadata]
        apply firstTagMatch_all_none
        intro k hk
        have := h k hk
        rw [Option.isNone_iff_eq_none] at this
        rw [this]
        rfl
    | flac pictures tags =>
      cases tags with
      | none => rfl
      | some prs =>
        simp only [albumAbsentB] at h
        simp only [extract_metadata]
        rw [if_neg (by simp [Bool.not_eq_true] at h ⊢; exact h)]
    | mp4 tags =>
      cases tags with
      | none => rfl
      | some ts =>
        simp only [albumAbsentB, Option.isNone_iff_eq_none] at h
        simp only [extract_metadata]
        rw [h]
    | ogg tags =>
      simp only [albumAbsentB] at h
      simp only [extract_metadata]
      rw [if_neg (by simp [Bool.not_eq_true] at h ⊢; exact h)]
    | generic tags =>
      cases tags with
      | none => rfl
      | some ts =>
        simp only [albumAbsentB, List.all_eq_true] at h
        simp only [extract_metadata]
        apply firstTagMatch_all_none
        intro k hk
        have := h k hk
        rwa [Option.isNone_iff_eq_none] at this
  · intro c h
    cases c with
    | mp3 tags =>
      cases tags with
      | none => rfl
      | some frames =>
        simp only [titleAbsentB, List.all_eq_true] at h
        simp only [extract_metadata]
        apply firstTagMatch_all_none
        intro k hk
        have := h k hk
        rw [Option.isNone_iff_eq_none] at this
        rw [this]
        rfl
    | flac pictures tags =>
      cases tags with
      | none => rfl
      | some prs =>
        simp only [titleAbsentB] at h
        simp only [extract_metadata]
        rw [if_neg (by simp [Bool.not_eq_true] at h ⊢; exact h)]
    | mp4 tags =>
      cases tags with
      | none => rfl
      | some ts =>
        simp only [titleAbsentB, Option.isNone_iff_eq_none] at h
        simp only [extract_metadata]
        rw [h]
    | ogg tags =>
      simp only [titleAbsentB] at h
      simp only [extract_metadata]
      rw [if_neg (by simp [Bool.not_eq_true] at h ⊢; exact h)]
    | generic tags =>
      cases tags with
      | none => rfl
      | some ts =>
        simp only [titleAbsentB, List.all_eq_true] at h
        simp only [extract_metadata]
        apply firstTagMatch_all_none
        intro k hk
        have := h k hk
        rwa [Option.isNone_iff_eq_none] at this

/-- C9, witness: a missing path and an MP3 file with no tags at all. -/
theorem c9_extractor_witness :
    get_music_metadata ⟨fun _ => "", fun _ => "", fun _ => ""⟩ true false
      (.parsed (.mp3 none)) = .error .fileNotFound
    ∧ (extract_metadata ⟨fun _ => "", fun _ => "", fun _ => ""⟩ (.mp3 none)).artist = none := by
  exact ⟨(c9_extractor_errors ⟨fun _ => "", fun _ => "", fun _ => ""⟩).1 (.parsed (.mp3 none)),
    (c9_extractor_errors ⟨fun _ => "", fun _ => "", fun _ => ""⟩).2.2.2.2.1 (.mp3 none) rfl⟩

/-! ## C6: the image normalizer -/

theorem crop_center_square_dims (img : PILImage) :
    (crop_center_square img).width = min img.width img.height
    ∧ (crop_center_square img).height = min img.width img.height := by
  unfold crop_center_square pilCrop
  split
  · rename_i h
    rw [h, Nat.min_self]
    exact ⟨rfl, rfl⟩
  · dsimp only
    constructor <;> omega

/-- C6, confirmed.  For every decodable image, the normalization steps
decode, convert to RGB, centre-crop to the square of side
`min(width, height)` at offsets `((width-side)/2, (height-side)/2)`, resize
to exactly 480x480 iff `force_480` is set or the cropped side is below 480,
and re-encode; the processed image always has `width = height`.
`convertRGB` and `resizeLanczos` are Pillow's `convert("RGB")` and
`resize(..., LANCZOS)`, assumed only to produce the documented output
dimensions. -/
theorem c6_normalize_square (decode : Bytes → Option PILImage)
    (convertRGB : PILImage → PILImage) (resizeLanczos : PILImage → Nat → Nat → PILImage)
    (encodeJpeg95 : PILImage → Bytes) (raw : Bytes) (force480 : Bool) (img : PILImage)
    (hcv : ∀ i, (convertRGB i).width = i.width ∧ (convertRGB i).height = i.height)
    (hrz : ∀ i w h, (resizeLanczos i w h).width = w ∧ (resizeLanczos i w h).height = h)
    (hdec : decode raw = some img) :
    normalizeCoverBytes decode convertRGB resizeLanczos encodeJpeg95 raw force480
      = some (encodeJpeg95 (processCover convertRGB resizeLanczos force480 img))
    ∧ (processCover convertRGB resizeLanczos force480 img).width
        = (processCover convertRGB resizeLanczos force480 img).height
    ∧ ((force480 = true ∨ min img.width img.height < 480) →
        processCover convertRGB resizeLanczos force480 img
          = resizeLanczos (crop_center_square (convertRGB img)) 480 480)
    ∧ ((force480 = false ∧ ¬ min img.width img.height < 480) →
        processCover convertRGB resizeLanczos force480 img
          = crop_center_square (convertRGB img))
    ∧ (img.width ≠ img.height →
        crop_center_square (convertRGB img)
          = pilCrop (convertRGB img)
              ((img.width - min img.width img.height) / 2)
              ((img.height - min img.width img.height) / 2)
              ((img.width - min img.width img.height) / 2 + min img.width img.height)
              ((img.height - min img.width img.height) / 2 + min img.width img.height)) := by
  have hcw := (hcv img).1
  have hch := (hcv img).2
  have hcrop := crop_center_square_dims (convertRGB img)
  have hmin : min (convertRGB img).width (convertRGB img).height
      = min img.width img.height := by
    rw [hcw, hch]
  refine ⟨?_, ?_, ?_, ?_, ?_⟩
  · simp [normalizeCoverBytes, hdec]
  · unfold processCover
    by_cases hc :
        (force480 || decide ((crop_center_square (convertRGB img)).width < 480)) = true
    · rw [if_pos hc, (hrz _ 480 480).1, (hrz _ 480 480).2]
    · rw [if_neg hc, hcrop.1, hcrop.2]
  · intro h
    unfold processCover
    have hc : (force480 || decide ((crop_center_square (convertRGB img)).width < 480)) = true := by
      rcases h with h | h
      · rw [h]
        rfl
      · rw [hcrop.1, hmin]
        simp [h]
    rw [if_pos hc]
  · intro h
    obtain ⟨hf, hlt⟩ := h
    have hc : (force480 || decide ((crop_center_square (convertRGB img)).width < 480)) = false := by
      rw [hf, hcrop.1, hmin]
      simp [hlt]
    unfold processCover
    rw [if_neg (by simp [hc])]
  · intro hne
    unfold crop_center_square
    rw [if_neg (by rw [hcw, hch]; exact hne)]
    simp only [hcw, hch]

/-- C6, witness at a concrete 640x480 image with trivial codec stand-ins. -/
theorem c6_normalize_witness :
    (processCover (fun i => i) (fun _ w h => ⟨w, h, fun _ _ => (0, 0, 0)⟩) false
        ⟨640, 480, fun _ _ => (0, 0, 0)⟩).width
      = (processCover (fun i => i) (fun _ w h => ⟨w, h, fun _ _ => (0, 0, 0)⟩) false
        ⟨640, 480, fun _ _ => (0, 0, 0)⟩).height := by
  exact (c6_normalize_square (fun _ => some ⟨640, 480, fun _ _ => (0, 0, 0)⟩)
    (fun i => i) (fun _ w h => ⟨w, h, fun _ _ => (0, 0, 0)⟩) (fun _ => []) [0] false
    ⟨640, 480, fun _ _ => (0, 0, 0)⟩ (fun _ => ⟨rfl, rfl⟩)
    (fun _ _ _ => ⟨rfl, rfl⟩) rfl).2.1

end ArtworkFetcher
